import Mathlib

/-!
Verification of the structured logging facility in syslogdiag/log.py.

Python dictionaries are modelled as association lists with unique keys
kept in insertion order.  Mutable dict objects live in an explicit heap of
dictionary cells, so statements about in-place mutation, aliasing and
frame conditions are genuine theorems about heap references rather than
artifacts of a purely functional embedding.  Timestamps are integers
measured in days; the persistent store collaborator, which lives outside
this file, is modelled from the spec where noted.
-/

/-- Values stored in attribute dictionaries and log records: strings,
datetimes (integers, one unit per day), and the nested mongo filter
condition dict binding the key dollar-lt to a cutoff datetime. -/
inductive PyVal where
  | str : String → PyVal
  | ts : Int → PyVal
  | ltCond : Int → PyVal
  deriving DecidableEq

/-- Failures raised by the Python source.  The source raises plain
exceptions; constructors are named after the error taxonomy of the spec,
one per distinct raise site, plus the builtin TypeError and KeyError. -/
inductive PyErr where
  | invalidSource : PyErr
  | invalidLevel : PyErr
  | notImplemented : PyErr
  | criticalRaised : String → PyErr
  | typeError : PyErr
  | keyError : PyErr
  deriving DecidableEq

/-- A Python dict: an association list with unique keys in insertion order. -/
abbrev Dict := List (String × PyVal)

/-- Python indexing d[k]: the value of the first (unique) binding of k. -/
def dlookup : Dict → String → Option PyVal
  | [], _ => none
  | p :: rest, k => if p.1 = k then some p.2 else dlookup rest k

/-- Python membership test: k in d. -/
def dcontains : Dict → String → Bool
  | [], _ => false
  | p :: rest, k => p.1 == k || dcontains rest k

/-- Python assignment d[k] = v: replaces the binding in place when k is
present, otherwise appends it at the end (dict insertion order). -/
def dinsert : Dict → String → PyVal → Dict
  | [], k, v => [(k, v)]
  | p :: rest, k, v => if p.1 = k then (k, v) :: rest else p :: dinsert rest k v

/-- Removal of a key, as performed by Python d.pop(k). -/
def ddelete (d : Dict) (k : String) : Dict := d.filter (fun p => p.1 != k)

/-- Python d.pop(k): returns the value and the dict without the key;
raises KeyError when the key is absent. -/
def dpop (d : Dict) (k : String) : Except PyErr (PyVal × Dict) :=
  match dlookup d k with
  | some v => .ok (v, ddelete d k)
  | none => .error .keyError

/-- The keys of a dict, in order. -/
def dkeys (d : Dict) : List String := d.map Prod.fst

theorem dlookup_dinsert_self (d : Dict) (k : String) (v : PyVal) :
    dlookup (dinsert d k v) k = some v := by
  induction d with
  | nil => simp [dinsert, dlookup]
  | cons p rest ih =>
    by_cases h : p.1 = k
    · simp [dinsert, dlookup, h]
    · simp [dinsert, dlookup, h, ih]

theorem dlookup_dinsert_ne (d : Dict) (k k' : String) (v : PyVal) (h : k' ≠ k) :
    dlookup (dinsert d k v) k' = dlookup d k' := by
  induction d with
  | nil => simp [dinsert, dlookup, Ne.symm h]
  | cons p rest ih =>
    by_cases hp : p.1 = k
    · simp [dinsert, dlookup, hp, Ne.symm h]
    · simp [dinsert, dlookup, hp, ih]

theorem length_dinsert (d : Dict) (k : String) (v : PyVal) :
    (dinsert d k v).length ≤ d.length + 1 := by
  induction d with
  | nil => simp [dinsert]
  | cons p rest ih =>
    by_cases h : p.1 = k
    · simp [dinsert, h]
    · simp only [dinsert, h, if_false, List.length_cons]
      omega

theorem dkeys_cons (p : String × PyVal) (rest : Dict) :
    dkeys (p :: rest) = p.1 :: dkeys rest := rfl

theorem dcontains_iff_mem (d : Dict) (k : String) :
    dcontains d k = true ↔ k ∈ dkeys d := by
  induction d with
  | nil => simp [dcontains, dkeys]
  | cons p rest ih =>
    rw [dkeys_cons, List.mem_cons]
    simp only [dcontains, Bool.or_eq_true, beq_iff_eq]
    rw [ih]
    constructor
    · rintro (h | h)
      · exact Or.inl h.symm
      · exact Or.inr h
    · rintro (h | h)
      · exact Or.inl h.symm
      · exact Or.inr h

theorem dcontains_eq_false_of_not_mem (d : Dict) (k : String) (h : k ∉ dkeys d) :
    dcontains d k = false := by
  rw [← Bool.not_eq_true, dcontains_iff_mem]
  exact h

theorem dcontains_true_iff_isSome (d : Dict) (k : String) :
    dcontains d k = true ↔ (dlookup d k).isSome = true := by
  induction d with
  | nil => simp [dcontains, dlookup]
  | cons p rest ih =>
    by_cases h : p.1 = k
    · simp [dcontains, dlookup, h]
    · simp [dcontains, dlookup, h, ih]

theorem dlookup_ddelete_self (d : Dict) (k : String) :
    dlookup (ddelete d k) k = none := by
  induction d with
  | nil => simp [ddelete, dlookup]
  | cons p rest ih =>
    by_cases h : p.1 = k
    · simpa [ddelete, List.filter_cons, h] using ih
    · simpa [ddelete, List.filter_cons, h, dlookup] using ih

theorem dlookup_ddelete_ne (d : Dict) (k k' : String) (h : k' ≠ k) :
    dlookup (ddelete d k) k' = dlookup d k' := by
  induction d with
  | nil => simp [ddelete, dlookup]
  | cons p rest ih =>
    simp only [ddelete, List.filter_cons] at ih ⊢
    by_cases hp : p.1 = k
    · simp [hp, dlookup, ih, Ne.symm h]
    · simp [hp, dlookup, ih]

theorem dcontains_ddelete_ne (d : Dict) (k k' : String) (h : k' ≠ k) :
    dcontains (ddelete d k) k' = dcontains d k' := by
  rw [Bool.eq_iff_iff, dcontains_true_iff_isSome, dcontains_true_iff_isSome,
    dlookup_ddelete_ne d k k' h]

/-- Pure value of the merged dict built by get_update_attributes_list on
the contents of the two dictionaries: copy the parent, then assign each
binding of the overrides in order. -/
def mergeDicts (A B : Dict) : Dict := B.foldl (fun j p => dinsert j p.1 p.2) A

theorem mergeDicts_nil (A : Dict) : mergeDicts A [] = A := rfl

theorem mergeDicts_cons (A : Dict) (p : String × PyVal) (rest : Dict) :
    mergeDicts A (p :: rest) = mergeDicts (dinsert A p.1 p.2) rest := rfl

theorem dlookup_mergeDicts (B A : Dict) (k : String) (hnd : (dkeys B).Nodup) :
    dlookup (mergeDicts A B) k
      = if dcontains B k then dlookup B k else dlookup A k := by
  induction B generalizing A with
  | nil => simp [mergeDicts, dcontains]
  | cons p rest ih =>
    rw [dkeys_cons, List.nodup_cons] at hnd
    obtain ⟨hp, hnd'⟩ := hnd
    rw [mergeDicts_cons, ih _ hnd']
    by_cases hk : p.1 = k
    · subst hk
      rw [dcontains_eq_false_of_not_mem rest p.1 hp]
      simp [dcontains, dlookup, dlookup_dinsert_self]
    · simp [dcontains, dlookup, hk, dlookup_dinsert_ne _ _ _ _ (Ne.symm hk)]

theorem length_mergeDicts (B A : Dict) :
    (mergeDicts A B).length ≤ A.length + B.length := by
  induction B generalizing A with
  | nil => simp [mergeDicts]
  | cons p rest ih =>
    rw [mergeDicts_cons]
    have h1 := ih (dinsert A p.1 p.2)
    have h2 := length_dinsert A p.1 p.2
    simp only [List.length_cons]
    omega

/-- A heap of Python dict objects: fresh is the next unused reference,
mem r the dict currently stored at reference r. -/
structure Heap where
  fresh : Nat
  mem : Nat → Dict

/-- Allocation of a new dict object: returns the updated heap and the
reference of the new object. -/
def Heap.alloc (h : Heap) (d : Dict) : Heap × Nat :=
  (⟨h.fresh + 1, fun r => if r = h.fresh then d else h.mem r⟩, h.fresh)

/-- In-place mutation: overwrite the dict stored at reference r. -/
def Heap.write (h : Heap) (r : Nat) (d : Dict) : Heap :=
  ⟨h.fresh, fun x => if x = r then d else h.mem x⟩

/-- Model of get_update_attributes_list(parent_attributes, new_attributes).
The statement joined_attributes = copy(parent_attributes) allocates a fresh
dict with the same entries; the loop for keyname in new_attributes.keys():
joined_attributes[keyname] = new_attributes[keyname] assigns each binding of
the overrides in order (a dict has unique keys, so walking its keys walks
its entries).  Returns the updated heap and the reference of the new dict. -/
def get_update_attributes_list (h : Heap) (parent_attributes new_attributes : Nat) :
    Heap × Nat :=
  let a := h.alloc (h.mem parent_attributes)
  let h1 := a.1
  let j := a.2
  let h2 := (h1.mem new_attributes).foldl
    (fun hh p => hh.write j (dinsert (hh.mem j) p.1 p.2)) h1
  (h2, j)

theorem foldl_write_mem (B : Dict) (j : Nat) (hh : Heap) (r : Nat) :
    (B.foldl (fun hh p => hh.write j (dinsert (hh.mem j) p.1 p.2)) hh).mem r
      = if r = j then mergeDicts (hh.mem j) B else hh.mem r := by
  induction B generalizing hh with
  | nil =>
    rcases eq_or_ne r j with rfl | hr
    · simp [mergeDicts]
    · simp [mergeDicts, hr]
  | cons p rest ih =>
    rw [List.foldl_cons, ih]
    rcases eq_or_ne r j with rfl | hr
    · simp [Heap.write, mergeDicts_cons]
    · simp [Heap.write, hr]

theorem foldl_write_fresh (B : Dict) (j : Nat) (hh : Heap) :
    (B.foldl (fun hh p => hh.write j (dinsert (hh.mem j) p.1 p.2)) hh).fresh
      = hh.fresh := by
  induction B generalizing hh with
  | nil => rfl
  | cons p rest ih => rw [List.foldl_cons, ih]; rfl

theorem get_update_attributes_list_spec (h : Heap) (pa na : Nat)
    (hpa : pa < h.fresh) (hna : na < h.fresh) :
    (get_update_attributes_list h pa na).2 = h.fresh ∧
    (get_update_attributes_list h pa na).1.fresh = h.fresh + 1 ∧
    (∀ r, r ≠ h.fresh → (get_update_attributes_list h pa na).1.mem r = h.mem r) ∧
    (get_update_attributes_list h pa na).1.mem h.fresh
      = mergeDicts (h.mem pa) (h.mem na) := by
  have hpa' : pa ≠ h.fresh := Nat.ne_of_lt hpa
  have hna' : na ≠ h.fresh := Nat.ne_of_lt hna
  refine ⟨rfl, ?_, ?_, ?_⟩
  · simp [get_update_attributes_list, Heap.alloc, foldl_write_fresh]
  · intro r hr
    simp [get_update_attributes_list, Heap.alloc, foldl_write_mem, hr, hna']
  · simp [get_update_attributes_list, Heap.alloc, foldl_write_mem, hna', hpa']

/-- A logger object: the reference of its attributes dict and its
log level string. -/
structure LoggerV where
  attrRef : Nat
  log_level : String

instance (priority := low) (ε α : Type) [DecidableEq ε] [DecidableEq α] :
    DecidableEq (Except ε α) := fun a b =>
  match a, b with
  | .ok x, .ok y =>
    if h : x = y then isTrue (by rw [h]) else isFalse (by simp [h])
  | .error x, .error y =>
    if h : x = y then isTrue (by rw [h]) else isFalse (by simp [h])
  | .ok _, .error _ => isFalse (by simp)
  | .error _, .ok _ => isFalse (by simp)

/-- Python str.lower(): lower-case every character. -/
def pyLower (s : String) : String := String.mk (s.data.map Char.toLower)

/-- Model of logger.set_logging_level(new_level): lower-cases the new level,
accepts only the three allowed levels and raises otherwise; returns the
value stored into the _log_level slot. -/
def set_logging_level (new_level : String) : Except PyErr String :=
  let new_level := pyLower new_level
  if new_level ∈ (["off", "terse", "on"] : List String) then .ok new_level
  else .error .invalidLevel

/-- Kinds of value passed as thing to logger.__init__: a string label,
a value exposing an attributes dict (a logger), or anything else. -/
inductive Thing where
  | strLabel : String → Thing
  | loggerLike : Nat → Thing
  | other : Thing

/-- Model of logger.__init__(thing, log_level, kwargs).  A string label
builds the fresh dict with the single binding type: label and merges the
keyword context into it; a logger-like value merges its attributes dict
with the keyword context; anything else raises.  The keyword context is
materialized as a fresh dict, as Python does for a kwargs dict.  After
binding the attributes the constructor runs set_logging_level, whose
failure propagates. -/
def logger_init (h : Heap) (thing : Thing) (log_level : String) (kwargs : Dict) :
    Except PyErr (Heap × LoggerV) :=
  match thing with
  | .strLabel s =>
    let a := h.alloc [("type", PyVal.str s)]
    let b := a.1.alloc kwargs
    let c := get_update_attributes_list b.1 a.2 b.2
    match set_logging_level log_level with
    | .ok lv => .ok (c.1, ⟨c.2, lv⟩)
    | .error e => .error e
  | .loggerLike attrs =>
    let b := h.alloc kwargs
    let c := get_update_attributes_list b.1 attrs b.2
    match set_logging_level log_level with
    | .ok lv => .ok (c.1, ⟨c.2, lv⟩)
    | .error e => .error e
  | .other => .error .invalidSource

/-- Model of logger.setup(kwargs).  new_log = copy(self) is a shallow copy
sharing the attributes reference; the kwargs dict is materialized fresh;
get_update_attributes_list merges the attributes of self with it into a new
dict; new_log.attributes is rebound to the merged dict and new_log._log_level
to self.logging_level().  Self is never assigned to. -/
def logger.setup (h : Heap) (self : LoggerV) (kwargs : Dict) : Heap × LoggerV :=
  let b := h.alloc kwargs
  let c := get_update_attributes_list b.1 self.attrRef b.2
  (c.1, ⟨c.2, self.log_level⟩)

/-- Model of logger.log(text, msglevel, kwargs): materializes the per-call
kwargs dict, merges it into the attributes of self with
get_update_attributes_list, and hands (msglevel, text, merged reference) to
log_handle_caller; the returned triple is the argument of that hook. -/
def logger.log (h : Heap) (self : LoggerV) (text : String) (msglevel : Nat)
    (kwargs : Dict) : Heap × (Nat × String × Nat) :=
  let b := h.alloc kwargs
  let c := get_update_attributes_list b.1 self.attrRef b.2
  (c.1, (msglevel, text, c.2))

/-- Repeated derivation: apply logger.setup with each context in turn, each
time deriving from the logger produced by the previous derivation. -/
def iterSetup (h : Heap) (L : LoggerV) : List Dict → Heap × LoggerV
  | [] => (h, L)
  | ctx :: rest =>
    let s := logger.setup h L ctx
    iterSetup s.1 s.2 rest

theorem alloc_merge_spec (h : Heap) (aRef : Nat) (ctx : Dict)
    (ha : aRef < h.fresh) :
    (get_update_attributes_list (h.alloc ctx).1 aRef (h.alloc ctx).2).2
        = h.fresh + 1 ∧
    (get_update_attributes_list (h.alloc ctx).1 aRef (h.alloc ctx).2).1.fresh
        = h.fresh + 2 ∧
    (∀ r, r < h.fresh →
      (get_update_attributes_list (h.alloc ctx).1 aRef (h.alloc ctx).2).1.mem r
        = h.mem r) ∧
    (get_update_attributes_list (h.alloc ctx).1 aRef (h.alloc ctx).2).1.mem
        (h.fresh + 1) = mergeDicts (h.mem aRef) ctx := by
  have hfr : (h.alloc ctx).1.fresh = h.fresh + 1 := rfl
  have hsnd : (h.alloc ctx).2 = h.fresh := rfl
  have ha1 : aRef < (h.alloc ctx).1.fresh := by rw [hfr]; omega
  have ha2 : (h.alloc ctx).2 < (h.alloc ctx).1.fresh := by rw [hfr, hsnd]; omega
  obtain ⟨h1, h2, h3, h4⟩ :=
    get_update_attributes_list_spec (h.alloc ctx).1 aRef (h.alloc ctx).2 ha1 ha2
  rw [hfr] at h1 h2 h3 h4
  refine ⟨h1, by omega, ?_, ?_⟩
  · intro r hr
    rw [h3 r (by omega)]
    simp [Heap.alloc, Nat.ne_of_lt hr]
  · rw [h4]
    have hm1 : (h.alloc ctx).1.mem aRef = h.mem aRef := by
      simp [Heap.alloc, Nat.ne_of_lt ha]
    have hm2 : (h.alloc ctx).1.mem (h.alloc ctx).2 = ctx := by
      simp [Heap.alloc, hsnd]
    rw [hm1, hsnd] at *
    simp [Heap.alloc]

theorem setup_spec (h : Heap) (self : LoggerV) (ctx : Dict)
    (hs : self.attrRef < h.fresh) :
    (logger.setup h self ctx).1.fresh = h.fresh + 2 ∧
    (∀ r, r < h.fresh → (logger.setup h self ctx).1.mem r = h.mem r) ∧
    (logger.setup h self ctx).2.attrRef = h.fresh + 1 ∧
    (logger.setup h self ctx).2.log_level = self.log_level ∧
    (logger.setup h self ctx).1.mem (h.fresh + 1)
      = mergeDicts (h.mem self.attrRef) ctx := by
  obtain ⟨e1, e2, e3, e4⟩ := alloc_merge_spec h self.attrRef ctx hs
  exact ⟨e2, e3, e1, rfl, e4⟩

theorem iterSetup_spec (ctxs : List Dict) (h : Heap) (L : LoggerV)
    (hL : L.attrRef < h.fresh) :
    h.fresh ≤ (iterSetup h L ctxs).1.fresh ∧
    (iterSetup h L ctxs).2.attrRef < (iterSetup h L ctxs).1.fresh ∧
    (iterSetup h L ctxs).2.log_level = L.log_level ∧
    (∀ r, r < h.fresh → (iterSetup h L ctxs).1.mem r = h.mem r) := by
  induction ctxs generalizing h L with
  | nil => exact ⟨Nat.le_refl _, hL, rfl, fun r _ => rfl⟩
  | cons ctx rest ih =>
    obtain ⟨s1, s2, s3, s4, s5⟩ := setup_spec h L ctx hL
    have hL' : (logger.setup h L ctx).2.attrRef < (logger.setup h L ctx).1.fresh := by
      rw [s1, s3]; omega
    obtain ⟨i1, i2, i3, i4⟩ := ih (logger.setup h L ctx).1 (logger.setup h L ctx).2 hL'
    have hstep : iterSetup h L (ctx :: rest)
        = iterSetup (logger.setup h L ctx).1 (logger.setup h L ctx).2 rest := rfl
    rw [hstep]
    refine ⟨by omega, i2, i3.trans s4, ?_⟩
    intro r hr
    rw [i4 r (by omega), s2 r hr]

/-- Model of logtoscreen.log_handle_caller(msglevel, text, use_attributes):
returns the printed lines and either normal completion or the exception
raised at critical level.  Control flow of the source: level 0 prints only
at threshold on; level 1 prints at on or terse; every other level prints
unconditionally; after that, level 3 prints a second time; finally level 4
raises carrying the text. -/
def logtoscreen.log_handle_caller (log_level : String) (msglevel : Nat)
    (text : String) : List String × Except PyErr Unit :=
  let printed :=
    if msglevel = 0 then
      (if log_level = "on" then [text] else [])
    else if msglevel = 1 then
      (if log_level ∈ (["on", "terse"] : List String) then [text] else [])
    else [text]
  let printed := if msglevel = 3 then printed ++ [text] else printed
  if msglevel = 4 then (printed, .error (.criticalRaised text))
  else (printed, .ok ())

/-- The severity-tag table MSG_LEVEL_DICT of the source. -/
def MSG_LEVEL_DICT : Dict :=
  [("m0", .str ""), ("m1", .str ""), ("m2", .str "[Warning]"),
   ("m3", .str "[Error]"), ("m4", .str "*CRITICAL*")]

/-- Reserved record key for the severity tag. -/
def LEVEL_ID : String := "_Level"

/-- Reserved record key for the timestamp. -/
def TIMESTAMP_ID : String := "_Timestamp"

/-- Reserved record key for the message text. -/
def TEXT_ID : String := "_Text"

/-- Modelled from the spec: the document identity key the opaque store adds
to every stored record (popped and discarded by the read side). -/
def MONGO_ID_KEY : String := "_id"

/-- Number of string directives in a percent-format string. -/
def countDirectives : List Char → Nat
  | '%' :: 's' :: rest => countDirectives rest + 1
  | _ :: rest => countDirectives rest
  | [] => 0

/-- Substitution of the arguments for the string directives, one each in
order. -/
def substDirectives : List Char → List String → String
  | '%' :: 's' :: rest, a :: args => a ++ substDirectives rest args
  | c :: rest, args => String.singleton c ++ substDirectives rest args
  | [], _ => ""

/-- Python percent-formatting restricted to format strings whose only
directives are string directives, the only kind the source uses: there must
be exactly one argument per directive, and a mismatch in either direction
raises TypeError as in Python. -/
def pyPercentFormat (fmt : String) (args : List String) : Except PyErr String :=
  if args.length = countDirectives fmt.data then
    .ok (substDirectives fmt.data args)
  else .error .typeError

/-- Python str of a datetime; the exact rendering is irrelevant here. -/
def pyStrTs (t : Int) : String := toString t

/-- Python str of an attributes dict; the exact rendering is irrelevant
here. -/
def pyStrDict (d : Dict) : String := String.intercalate ", " (d.map Prod.fst)

/-- Model of logToMongod.log_handle_caller(msglevel, text, use_attributes).
It copies the merged attributes into log_dict, adds the severity tag looked
up in MSG_LEVEL_DICT under key m followed by the level, the current
timestamp and the text under the reserved keys, inserts the record into the
log collection (modelled from the spec: insert appends one document), and
then prints the format string with four string directives applied to the
three values timestamp, stringified attributes and text.  Returns the
collection after the call, the printed lines, and normal or exceptional
completion. -/
def logToMongod.log_handle_caller (coll : List Dict) (use_attributes : Dict)
    (msglevel : Nat) (text : String) (datetime_now : Int) :
    List Dict × List String × Except PyErr Unit :=
  match dlookup MSG_LEVEL_DICT ("m" ++ toString msglevel) with
  | none => (coll, [], .error .keyError)
  | some msg_level_text =>
    let log_dict := use_attributes
    let log_dict := dinsert log_dict LEVEL_ID msg_level_text
    let log_dict := dinsert log_dict TIMESTAMP_ID (.ts datetime_now)
    let log_dict := dinsert log_dict TEXT_ID (.str text)
    let coll := coll ++ [log_dict]
    match pyPercentFormat "%s %s %s %s"
        [pyStrTs datetime_now, pyStrDict use_attributes, text] with
    | .ok line => (coll, [line], .ok ())
    | .error e => (coll, [], .error e)

/-- Modelled from the spec: how a stored document matches one entry of a
filter — plain values by field equality, the nested less-than condition
by a strict comparison against the datetime stored under the field. -/
def matchEntry (doc : Dict) (kv : String × PyVal) : Bool :=
  match kv.2 with
  | PyVal.ltCond c =>
    match dlookup doc kv.1 with
    | some (PyVal.ts t) => decide (t < c)
    | _ => false
  | v => decide (dlookup doc kv.1 = some v)

/-- Modelled from the spec: a document matches a filter when it matches
every entry of the filter. -/
def matchesFilter (query : Dict) (doc : Dict) : Bool := query.all (matchEntry doc)

/-- Modelled from the spec: collection.find(filter) returns all documents
matching the filter, in collection order. -/
def findDocs (coll : List Dict) (query : Dict) : List Dict :=
  coll.filter (fun doc => matchesFilter query doc)

/-- One list comprehension d.pop(k) for d in rd: the popped values and the
mutated dicts, failing with KeyError when some dict lacks the key. -/
def popEach : List Dict → String → Except PyErr (List PyVal × List Dict)
  | [], _ => .ok ([], [])
  | d :: rest, k => do
    let p ← dpop d k
    let q ← popEach rest k
    pure (p.1 :: q.1, p.2 :: q.2)

/-- Python zip of the four comprehension results into 4-tuples. -/
def zip4 : List PyVal → List PyVal → List PyVal → List Dict →
    List (PyVal × PyVal × PyVal × Dict)
  | t :: ts, l :: ls, x :: xs, a :: attrs => (t, l, x, a) :: zip4 ts ls xs attrs
  | _, _, _, _ => []

/-- Sort key tup[0] of a record tuple: stored records carry a datetime
there; any other value orders as zero and is never hit on store data. -/
def tsKeyVal : PyVal → Int
  | PyVal.ts t => t
  | _ => 0

/-- The timestamp of a document is a datetime strictly before the cutoff. -/
def docTsLt (doc : Dict) (c : Int) : Bool :=
  match dlookup doc TIMESTAMP_ID with
  | some (PyVal.ts t) => decide (t < c)
  | _ => false

/-- A well-formed stored record: it contains the mongo identity key and the
three reserved keys, as every record written by the store sink does. -/
def wfDoc (doc : Dict) : Bool :=
  dcontains doc MONGO_ID_KEY && dcontains doc TIMESTAMP_ID &&
    dcontains doc LEVEL_ID && dcontains doc TEXT_ID

/-- The tuple the read pipeline produces for one matching document: pop the
mongo identity key, then the timestamp, severity tag and text in that
order; the dict that remains is the returned attribute mapping. -/
def extractTuple (doc : Dict) : PyVal × PyVal × PyVal × Dict :=
  ((dlookup (ddelete doc MONGO_ID_KEY) TIMESTAMP_ID).getD (PyVal.str ""),
   (dlookup (ddelete (ddelete doc MONGO_ID_KEY) TIMESTAMP_ID) LEVEL_ID).getD
     (PyVal.str ""),
   (dlookup (ddelete (ddelete (ddelete doc MONGO_ID_KEY) TIMESTAMP_ID)
     LEVEL_ID) TEXT_ID).getD (PyVal.str ""),
   ddelete (ddelete (ddelete (ddelete doc MONGO_ID_KEY) TIMESTAMP_ID)
     LEVEL_ID) TEXT_ID)

/-- Model of accessLogFromMongodb.get_log_items_as_tuple(attribute_dict,
lookback_days).  It computes cutoff_date = now minus lookback_days (time is
measured in days), assigns the nested less-than condition to the reserved
timestamp key of the dict the caller passed by reference — an in-place
mutation of that dict — queries the store with the mutated dict (modelled
from the spec: find returns the matching documents), pops the mongo
identity, timestamp, severity tag and text off each result in four list
comprehensions, zips the four result lists into tuples and sorts them
ascending by the timestamp field.  Returns the heap after the mutation,
and the tuples or the propagated exception. -/
def get_log_items_as_tuple (h : Heap) (coll : List Dict) (attribute_dict : Nat)
    (now : Int) (lookback_days : Nat) :
    Heap × Except PyErr (List (PyVal × PyVal × PyVal × Dict)) :=
  let cutoff_date : Int := now - lookback_days
  let timestamp_dict := PyVal.ltCond cutoff_date
  let h1 := h.write attribute_dict
    (dinsert (h.mem attribute_dict) TIMESTAMP_ID timestamp_dict)
  let result_dict := findDocs coll (h1.mem attribute_dict)
  (h1, do
    let p0 ← popEach result_dict MONGO_ID_KEY
    let p1 ← popEach p0.2 TIMESTAMP_ID
    let p2 ← popEach p1.2 LEVEL_ID
    let p3 ← popEach p2.2 TEXT_ID
    pure ((zip4 p1.1 p2.1 p3.1 p3.2).mergeSort
      (fun a b => decide (tsKeyVal a.1 ≤ tsKeyVal b.1))))

theorem popEach_ok (rd : List Dict) (k : String)
    (hwf : ∀ d ∈ rd, dcontains d k = true) :
    popEach rd k = .ok (rd.map (fun d => (dlookup d k).getD (PyVal.str "")),
      rd.map (fun d => ddelete d k)) := by
  induction rd with
  | nil => rfl
  | cons d rest ih =>
    have hd := hwf d (List.mem_cons_self d rest)
    rw [dcontains_true_iff_isSome] at hd
    obtain ⟨v, hv⟩ := Option.isSome_iff_exists.mp hd
    have hrest := ih (fun x hx => hwf x (List.mem_cons_of_mem d hx))
    simp [popEach, dpop, hv, hrest, Bind.bind, Except.bind, Pure.pure,
      Except.pure]

theorem zip4_map (l : List Dict) (f g p : Dict → PyVal) (q : Dict → Dict) :
    zip4 (l.map f) (l.map g) (l.map p) (l.map q)
      = l.map (fun d => (f d, g d, p d, q d)) := by
  induction l with
  | nil => rfl
  | cons d rest ih => simp [zip4, ih]

theorem dinsert_eq_append (d : Dict) (k : String) (v : PyVal)
    (h : dcontains d k = false) : dinsert d k v = d ++ [(k, v)] := by
  induction d with
  | nil => rfl
  | cons p rest ih =>
    simp only [dcontains, Bool.or_eq_false_iff, beq_eq_false_iff_ne, ne_eq] at h
    simp [dinsert, h.1, ih h.2]

theorem findDocs_timestamp_filter (coll : List Dict) (F : Dict) (c : Int)
    (hF : dcontains F TIMESTAMP_ID = false) :
    findDocs coll (dinsert F TIMESTAMP_ID (PyVal.ltCond c))
      = coll.filter (fun doc => matchesFilter F doc && docTsLt doc c) := by
  rw [dinsert_eq_append F TIMESTAMP_ID _ hF]
  unfold findDocs
  apply List.filter_congr
  intro doc _
  simp only [matchesFilter, List.all_append, List.all_cons, List.all_nil,
    Bool.and_true]
  rfl

theorem get_log_items_as_tuple_fst (h : Heap) (coll : List Dict) (adRef : Nat)
    (now : Int) (days : Nat) :
    (get_log_items_as_tuple h coll adRef now days).1
      = h.write adRef (dinsert (h.mem adRef) TIMESTAMP_ID
          (PyVal.ltCond (now - (days : Int)))) := rfl

theorem get_log_items_as_tuple_snd (h : Heap) (coll : List Dict) (adRef : Nat)
    (now : Int) (days : Nat) (hwf : ∀ doc ∈ coll, wfDoc doc = true) :
    (get_log_items_as_tuple h coll adRef now days).2
      = .ok (((findDocs coll (dinsert (h.mem adRef) TIMESTAMP_ID
          (PyVal.ltCond (now - (days : Int))))).map extractTuple).mergeSort
          (fun a b => decide (tsKeyVal a.1 ≤ tsKeyVal b.1))) := by
  have hw : ∀ doc ∈ findDocs coll (dinsert (h.mem adRef) TIMESTAMP_ID
      (PyVal.ltCond (now - (days : Int)))), wfDoc doc = true :=
    fun doc hd => hwf doc (List.mem_of_mem_filter hd)
  have hm : ∀ d ∈ findDocs coll (dinsert (h.mem adRef) TIMESTAMP_ID
      (PyVal.ltCond (now - (days : Int)))), dcontains d MONGO_ID_KEY = true := by
    intro d hd
    have := hw d hd
    simp only [wfDoc, Bool.and_eq_true] at this
    exact this.1.1.1
  have ht : ∀ d ∈ findDocs coll (dinsert (h.mem adRef) TIMESTAMP_ID
      (PyVal.ltCond (now - (days : Int)))), dcontains d TIMESTAMP_ID = true := by
    intro d hd
    have := hw d hd
    simp only [wfDoc, Bool.and_eq_true] at this
    exact this.1.1.2
  have hl : ∀ d ∈ findDocs coll (dinsert (h.mem adRef) TIMESTAMP_ID
      (PyVal.ltCond (now - (days : Int)))), dcontains d LEVEL_ID = true := by
    intro d hd
    have := hw d hd
    simp only [wfDoc, Bool.and_eq_true] at this
    exact this.1.2
  have hx : ∀ d ∈ findDocs coll (dinsert (h.mem adRef) TIMESTAMP_ID
      (PyVal.ltCond (now - (days : Int)))), dcontains d TEXT_ID = true := by
    intro d hd
    have := hw d hd
    simp only [wfDoc, Bool.and_eq_true] at this
    exact this.2
  have e0 := popEach_ok _ MONGO_ID_KEY hm
  have e1 := popEach_ok ((findDocs coll (dinsert (h.mem adRef) TIMESTAMP_ID
      (PyVal.ltCond (now - (days : Int))))).map
      (fun d => ddelete d MONGO_ID_KEY)) TIMESTAMP_ID (by
    intro d hd
    obtain ⟨d0, hd0, rfl⟩ := List.mem_map.mp hd
    rw [dcontains_ddelete_ne _ _ _ (by decide)]
    exact ht d0 hd0)
  have e2 := popEach_ok (((findDocs coll (dinsert (h.mem adRef) TIMESTAMP_ID
      (PyVal.ltCond (now - (days : Int))))).map
      (fun d => ddelete d MONGO_ID_KEY)).map
      (fun d => ddelete d TIMESTAMP_ID)) LEVEL_ID (by
    intro d hd
    obtain ⟨d1, hd1, rfl⟩ := List.mem_map.mp hd
    obtain ⟨d0, hd0, rfl⟩ := List.mem_map.mp hd1
    rw [dcontains_ddelete_ne _ _ _ (by decide),
      dcontains_ddelete_ne _ _ _ (by decide)]
    exact hl d0 hd0)
  have e3 := popEach_ok ((((findDocs coll (dinsert (h.mem adRef) TIMESTAMP_ID
      (PyVal.ltCond (now - (days : Int))))).map
      (fun d => ddelete d MONGO_ID_KEY)).map
      (fun d => ddelete d TIMESTAMP_ID)).map
      (fun d => ddelete d LEVEL_ID)) TEXT_ID (by
    intro d hd
    obtain ⟨d2, hd2, rfl⟩ := List.mem_map.mp hd
    obtain ⟨d1, hd1, rfl⟩ := List.mem_map.mp hd2
    obtain ⟨d0, hd0, rfl⟩ := List.mem_map.mp hd1
    rw [dcontains_ddelete_ne _ _ _ (by decide),
      dcontains_ddelete_ne _ _ _ (by decide),
      dcontains_ddelete_ne _ _ _ (by decide)]
    exact hx d0 hd0)
  show (get_log_items_as_tuple h coll adRef now days).2 = _
  simp only [get_log_items_as_tuple, Heap.write, eq_self_iff_true, if_true]
  rw [e0]
  simp only [Bind.bind, Except.bind]
  rw [e1]
  dsimp only
  rw [e2]
  dsimp only
  rw [e3]
  dsimp only
  simp only [Pure.pure, Except.pure, List.map_map]
  rw [zip4_map]
  rfl

/-- C1: the spec claims every StoreSink emit inserts exactly one record —
carrying the merged attributes plus the reserved severity, timestamp and
text keys — and prints exactly one console line.  On the code, the one
record is inserted, but the console print then raises TypeError, because
the format string has four string directives and only three arguments;
no console line is printed.  This theorem evaluates the store sink at any
valid level: the collection gains exactly the one expected record, the
printed-line list is empty, and the call ends in TypeError. -/
theorem C1_store_emit_record_but_no_console_line
    (coll : List Dict) (attrs : Dict) (msglevel : Nat) (text : String)
    (now : Int) (lv : PyVal)
    (hlv : dlookup MSG_LEVEL_DICT ("m" ++ toString msglevel) = some lv) :
    logToMongod.log_handle_caller coll attrs msglevel text now
      = (coll ++ [dinsert (dinsert (dinsert attrs LEVEL_ID lv) TIMESTAMP_ID
          (PyVal.ts now)) TEXT_ID (PyVal.str text)], [], .error .typeError) := by
  have hc : countDirectives ("%s %s %s %s".data) = 4 := by decide
  simp only [logToMongod.log_handle_caller, hlv, pyPercentFormat, hc,
    List.length_cons, List.length_nil]
  norm_num

theorem C1_store_emit_record_but_no_console_line_witness :
    dlookup MSG_LEVEL_DICT ("m" ++ toString 0) = some (PyVal.str "") ∧
    logToMongod.log_handle_caller [] [("type", PyVal.str "T")] 0 "x" 0
      = ([] ++ [dinsert (dinsert (dinsert [("type", PyVal.str "T")] LEVEL_ID
          (PyVal.str "")) TIMESTAMP_ID (PyVal.ts 0)) TEXT_ID (PyVal.str "x")],
         [], .error .typeError) :=
  ⟨by decide, C1_store_emit_record_but_no_console_line [] [("type", PyVal.str "T")]
    0 "x" 0 (PyVal.str "") (by decide)⟩

/-- C2: the spec table says level 3 (error) is printed — exactly one line —
at every threshold, and the module doctest shows a single line for an error
emit.  The code prints the text twice at level 3: once in the catch-all
branch for levels above 1 and once more in the dedicated level 3 branch.
This theorem evaluates the console sink at level 3 for an arbitrary
threshold and text: two identical lines are printed.  Every other row of
the table, including level 4 printing once and then raising, matches. -/
theorem C2_console_error_prints_twice (log_level text : String) :
    logtoscreen.log_handle_caller log_level 3 text = ([text, text], .ok ()) := rfl

/-- C3: the spec claims a StoreSink emit never raises at any level, and the
method docstring itself says it does not raise exceptions.  On the code
every emit raises TypeError from the malformed console print after the
record is inserted.  This theorem evaluates the completion status of the
store sink at any valid level: it is always the TypeError failure, never
normal completion. -/
theorem C3_store_emit_always_raises
    (coll : List Dict) (attrs : Dict) (msglevel : Nat) (text : String)
    (now : Int) (lv : PyVal)
    (hlv : dlookup MSG_LEVEL_DICT ("m" ++ toString msglevel) = some lv) :
    (logToMongod.log_handle_caller coll attrs msglevel text now).2.2
      = .error .typeError := by
  have hc : countDirectives ("%s %s %s %s".data) = 4 := by decide
  simp only [logToMongod.log_handle_caller, hlv, pyPercentFormat, hc,
    List.length_cons, List.length_nil]
  norm_num

theorem C3_store_emit_always_raises_witness :
    dlookup MSG_LEVEL_DICT ("m" ++ toString 4) = some (PyVal.str "*CRITICAL*") ∧
    (logToMongod.log_handle_caller [] [("type", PyVal.str "T")] 4 "boom" 9).2.2
      = .error .typeError :=
  ⟨by decide, C3_store_emit_always_raises [] [("type", PyVal.str "T")] 4 "boom" 9
    (PyVal.str "*CRITICAL*") (by decide)⟩

/-- C4: merging attribute dictionaries with get_update_attributes_list
produces a new dict object — distinct from both inputs, which are left
unchanged on the heap — whose bindings take the value of the overrides for
every key of the overrides and the value of the base for every other key,
and whose size is at most the sum of the two sizes. -/
theorem C4_merge_semantics (h : Heap) (pa na : Nat) (k : String)
    (hpa : pa < h.fresh) (hna : na < h.fresh)
    (hnd : (dkeys (h.mem na)).Nodup) :
    (get_update_attributes_list h pa na).1.mem pa = h.mem pa ∧
    (get_update_attributes_list h pa na).1.mem na = h.mem na ∧
    (get_update_attributes_list h pa na).2 ≠ pa ∧
    (get_update_attributes_list h pa na).2 ≠ na ∧
    dlookup ((get_update_attributes_list h pa na).1.mem
        (get_update_attributes_list h pa na).2) k
      = (if dcontains (h.mem na) k then dlookup (h.mem na) k
         else dlookup (h.mem pa) k) ∧
    ((get_update_attributes_list h pa na).1.mem
        (get_update_attributes_list h pa na).2).length
      ≤ (h.mem pa).length + (h.mem na).length := by
  obtain ⟨e1, e2, e3, e4⟩ := get_update_attributes_list_spec h pa na hpa hna
  refine ⟨e3 pa (Nat.ne_of_lt hpa), e3 na (Nat.ne_of_lt hna), ?_, ?_, ?_, ?_⟩
  · rw [e1]; exact (Nat.ne_of_lt hpa).symm
  · rw [e1]; exact (Nat.ne_of_lt hna).symm
  · rw [e1, e4]; exact dlookup_mergeDicts (h.mem na) (h.mem pa) k hnd
  · rw [e1, e4]; exact length_mergeDicts (h.mem na) (h.mem pa)

theorem C4_merge_semantics_witness :
    (0 : Nat) < (⟨2, fun r => if r = 0
      then [("a", PyVal.str "x"), ("c", PyVal.str "w")]
      else [("a", PyVal.str "y")]⟩ : Heap).fresh ∧
    (1 : Nat) < (⟨2, fun r => if r = 0
      then [("a", PyVal.str "x"), ("c", PyVal.str "w")]
      else [("a", PyVal.str "y")]⟩ : Heap).fresh ∧
    (dkeys ((⟨2, fun r => if r = 0
      then [("a", PyVal.str "x"), ("c", PyVal.str "w")]
      else [("a", PyVal.str "y")]⟩ : Heap).mem 1)).Nodup ∧
    ((get_update_attributes_list (⟨2, fun r => if r = 0
      then [("a", PyVal.str "x"), ("c", PyVal.str "w")]
      else [("a", PyVal.str "y")]⟩ : Heap) 0 1).1.mem 0
        = (⟨2, fun r => if r = 0
      then [("a", PyVal.str "x"), ("c", PyVal.str "w")]
      else [("a", PyVal.str "y")]⟩ : Heap).mem 0 ∧
    (get_update_attributes_list (⟨2, fun r => if r = 0
      then [("a", PyVal.str "x"), ("c", PyVal.str "w")]
      else [("a", PyVal.str "y")]⟩ : Heap) 0 1).1.mem 1
        = (⟨2, fun r => if r = 0
      then [("a", PyVal.str "x"), ("c", PyVal.str "w")]
      else [("a", PyVal.str "y")]⟩ : Heap).mem 1 ∧
    (get_update_attributes_list (⟨2, fun r => if r = 0
      then [("a", PyVal.str "x"), ("c", PyVal.str "w")]
      else [("a", PyVal.str "y")]⟩ : Heap) 0 1).2 ≠ 0 ∧
    (get_update_attributes_list (⟨2, fun r => if r = 0
      then [("a", PyVal.str "x"), ("c", PyVal.str "w")]
      else [("a", PyVal.str "y")]⟩ : Heap) 0 1).2 ≠ 1 ∧
    dlookup ((get_update_attributes_list (⟨2, fun r => if r = 0
      then [("a", PyVal.str "x"), ("c", PyVal.str "w")]
      else [("a", PyVal.str "y")]⟩ : Heap) 0 1).1.mem
        (get_update_attributes_list (⟨2, fun r => if r = 0
      then [("a", PyVal.str "x"), ("c", PyVal.str "w")]
      else [("a", PyVal.str "y")]⟩ : Heap) 0 1).2) "a"
      = (if dcontains ((⟨2, fun r => if r = 0
      then [("a", PyVal.str "x"), ("c", PyVal.str "w")]
      else [("a", PyVal.str "y")]⟩ : Heap).mem 1) "a"
         then dlookup ((⟨2, fun r => if r = 0
      then [("a", PyVal.str "x"), ("c", PyVal.str "w")]
      else [("a", PyVal.str "y")]⟩ : Heap).mem 1) "a"
         else dlookup ((⟨2, fun r => if r = 0
      then [("a", PyVal.str "x"), ("c", PyVal.str "w")]
      else [("a", PyVal.str "y")]⟩ : Heap).mem 0) "a") ∧
    ((get_update_attributes_list (⟨2, fun r => if r = 0
      then [("a", PyVal.str "x"), ("c", PyVal.str "w")]
      else [("a", PyVal.str "y")]⟩ : Heap) 0 1).1.mem
        (get_update_attributes_list (⟨2, fun r => if r = 0
      then [("a", PyVal.str "x"), ("c", PyVal.str "w")]
      else [("a", PyVal.str "y")]⟩ : Heap) 0 1).2).length
      ≤ ((⟨2, fun r => if r = 0
      then [("a", PyVal.str "x"), ("c", PyVal.str "w")]
      else [("a", PyVal.str "y")]⟩ : Heap).mem 0).length
        + ((⟨2, fun r => if r = 0
      then [("a", PyVal.str "x"), ("c", PyVal.str "w")]
      else [("a", PyVal.str "y")]⟩ : Heap).mem 1).length) :=
  ⟨by decide, by decide, by decide,
    C4_merge_semantics _ 0 1 "a" (by decide) (by decide) (by decide)⟩

/-- C5: logger.setup derives a new logger whose attributes dict is a fresh
object holding exactly the merge of the source attributes with the supplied
context and whose threshold equals the threshold of the source; the dict of
the source logger is left unchanged on the heap, both by a single
derivation and by any chain of derivations. -/
theorem C5_setup_derives_without_mutation (h : Heap) (L : LoggerV)
    (ctx : Dict) (ctxs : List Dict) (hL : L.attrRef < h.fresh) :
    (logger.setup h L ctx).1.mem (logger.setup h L ctx).2.attrRef
      = mergeDicts (h.mem L.attrRef) ctx ∧
    (logger.setup h L ctx).2.log_level = L.log_level ∧
    (logger.setup h L ctx).2.attrRef ≠ L.attrRef ∧
    (logger.setup h L ctx).1.mem L.attrRef = h.mem L.attrRef ∧
    (iterSetup h L ctxs).1.mem L.attrRef = h.mem L.attrRef ∧
    (iterSetup h L ctxs).2.log_level = L.log_level := by
  obtain ⟨s1, s2, s3, s4, s5⟩ := setup_spec h L ctx hL
  obtain ⟨i1, i2, i3, i4⟩ := iterSetup_spec ctxs h L hL
  refine ⟨?_, s4, ?_, s2 L.attrRef hL, i4 L.attrRef hL, i3⟩
  · rw [s3, s5]
  · rw [s3]; omega

theorem C5_setup_derives_without_mutation_witness :
    (0 : Nat) < (⟨1, fun _ => [("type", PyVal.str "sys")]⟩ : Heap).fresh ∧
    ((logger.setup (⟨1, fun _ => [("type", PyVal.str "sys")]⟩ : Heap)
        ⟨0, "on"⟩ [("stage", PyVal.str "s")]).1.mem
        (logger.setup (⟨1, fun _ => [("type", PyVal.str "sys")]⟩ : Heap)
        ⟨0, "on"⟩ [("stage", PyVal.str "s")]).2.attrRef
      = mergeDicts ((⟨1, fun _ => [("type", PyVal.str "sys")]⟩ : Heap).mem 0)
          [("stage", PyVal.str "s")] ∧
    (logger.setup (⟨1, fun _ => [("type", PyVal.str "sys")]⟩ : Heap)
        ⟨0, "on"⟩ [("stage", PyVal.str "s")]).2.log_level
      = (⟨0, "on"⟩ : LoggerV).log_level ∧
    (logger.setup (⟨1, fun _ => [("type", PyVal.str "sys")]⟩ : Heap)
        ⟨0, "on"⟩ [("stage", PyVal.str "s")]).2.attrRef ≠ (⟨0, "on"⟩ : LoggerV).attrRef ∧
    (logger.setup (⟨1, fun _ => [("type", PyVal.str "sys")]⟩ : Heap)
        ⟨0, "on"⟩ [("stage", PyVal.str "s")]).1.mem 0
      = (⟨1, fun _ => [("type", PyVal.str "sys")]⟩ : Heap).mem 0 ∧
    (iterSetup (⟨1, fun _ => [("type", PyVal.str "sys")]⟩ : Heap) ⟨0, "on"⟩
        [[("stage", PyVal.str "s")], [("stage", PyVal.str "u")]]).1.mem 0
      = (⟨1, fun _ => [("type", PyVal.str "sys")]⟩ : Heap).mem 0 ∧
    (iterSetup (⟨1, fun _ => [("type", PyVal.str "sys")]⟩ : Heap) ⟨0, "on"⟩
        [[("stage", PyVal.str "s")], [("stage", PyVal.str "u")]]).2.log_level
      = (⟨0, "on"⟩ : LoggerV).log_level) :=
  ⟨by decide, C5_setup_derives_without_mutation
    (⟨1, fun _ => [("type", PyVal.str "sys")]⟩ : Heap) ⟨0, "on"⟩
    [("stage", PyVal.str "s")]
    [[("stage", PyVal.str "s")], [("stage", PyVal.str "u")]] (by decide)⟩

/-- C6: logger.log hands the delivery hook the level, the text and a merged
attributes dict built for this call only: the dict given to the hook is a
fresh object — not the attributes dict of the logger — holding the merge of
the logger attributes with the per-call context, and the attributes dict of
the logger is unchanged on the heap after the call. -/
theorem C6_log_merges_per_call_only (h : Heap) (L : LoggerV) (text : String)
    (msglevel : Nat) (ctx : Dict) (hL : L.attrRef < h.fresh) :
    (logger.log h L text msglevel ctx).2.1 = msglevel ∧
    (logger.log h L text msglevel ctx).2.2.1 = text ∧
    (logger.log h L text msglevel ctx).1.mem
        (logger.log h L text msglevel ctx).2.2.2
      = mergeDicts (h.mem L.attrRef) ctx ∧
    (logger.log h L text msglevel ctx).2.2.2 ≠ L.attrRef ∧
    (logger.log h L text msglevel ctx).1.mem L.attrRef = h.mem L.attrRef := by
  obtain ⟨e1, e2, e3, e4⟩ := alloc_merge_spec h L.attrRef ctx hL
  refine ⟨rfl, rfl, ?_, ?_, e3 L.attrRef hL⟩
  · show (get_update_attributes_list (h.alloc ctx).1 L.attrRef (h.alloc ctx).2).1.mem
        (get_update_attributes_list (h.alloc ctx).1 L.attrRef (h.alloc ctx).2).2
      = mergeDicts (h.mem L.attrRef) ctx
    rw [e1]
    exact e4
  · show (get_update_attributes_list (h.alloc ctx).1 L.attrRef (h.alloc ctx).2).2
      ≠ L.attrRef
    rw [e1]
    omega

theorem C6_log_merges_per_call_only_witness :
    (0 : Nat) < (⟨1, fun _ => [("type", PyVal.str "sys")]⟩ : Heap).fresh ∧
    ((logger.log (⟨1, fun _ => [("type", PyVal.str "sys")]⟩ : Heap)
        ⟨0, "off"⟩ "hello" 2 [("stage", PyVal.str "s")]).2.1 = 2 ∧
    (logger.log (⟨1, fun _ => [("type", PyVal.str "sys")]⟩ : Heap)
        ⟨0, "off"⟩ "hello" 2 [("stage", PyVal.str "s")]).2.2.1 = "hello" ∧
    (logger.log (⟨1, fun _ => [("type", PyVal.str "sys")]⟩ : Heap)
        ⟨0, "off"⟩ "hello" 2 [("stage", PyVal.str "s")]).1.mem
        (logger.log (⟨1, fun _ => [("type", PyVal.str "sys")]⟩ : Heap)
        ⟨0, "off"⟩ "hello" 2 [("stage", PyVal.str "s")]).2.2.2
      = mergeDicts ((⟨1, fun _ => [("type", PyVal.str "sys")]⟩ : Heap).mem 0)
          [("stage", PyVal.str "s")] ∧
    (logger.log (⟨1, fun _ => [("type", PyVal.str "sys")]⟩ : Heap)
        ⟨0, "off"⟩ "hello" 2 [("stage", PyVal.str "s")]).2.2.2
      ≠ (⟨0, "off"⟩ : LoggerV).attrRef ∧
    (logger.log (⟨1, fun _ => [("type", PyVal.str "sys")]⟩ : Heap)
        ⟨0, "off"⟩ "hello" 2 [("stage", PyVal.str "s")]).1.mem 0
      = (⟨1, fun _ => [("type", PyVal.str "sys")]⟩ : Heap).mem 0) :=
  ⟨by decide, C6_log_merges_per_call_only
    (⟨1, fun _ => [("type", PyVal.str "sys")]⟩ : Heap) ⟨0, "off"⟩ "hello" 2
    [("stage", PyVal.str "s")] (by decide)⟩

/-- C7: constructing a logger from a string label yields an attributes dict
equal to the merge of the single binding type: label with the supplied
keyword context; constructing from a logger-like value yields the merge of
its attributes with the context while the source dict is unchanged on the
heap; constructing from anything else fails with the invalid-source error;
and a threshold string outside off, terse, on fails with the invalid-level
error, while the default threshold Off is stored lower-cased as off. -/
theorem C7_construction (h : Heap) (name : String) (aref : Nat) (kwargs : Dict)
    (anylv badlv : String) (ha : aref < h.fresh)
    (hbad : pyLower badlv ∉ (["off", "terse", "on"] : List String)) :
    (∃ h1 L1, logger_init h (.strLabel name) "Off" kwargs = .ok (h1, L1) ∧
      L1.log_level = "off" ∧
      h1.mem L1.attrRef = mergeDicts [("type", PyVal.str name)] kwargs) ∧
    (∃ h2 L2, logger_init h (.loggerLike aref) "Off" kwargs = .ok (h2, L2) ∧
      L2.log_level = "off" ∧
      h2.mem L2.attrRef = mergeDicts (h.mem aref) kwargs ∧
      h2.mem aref = h.mem aref) ∧
    logger_init h .other anylv kwargs = .error .invalidSource ∧
    logger_init h (.strLabel name) badlv kwargs = .error .invalidLevel := by
  have hOff : set_logging_level "Off" = .ok "off" := by decide
  have hBad : set_logging_level badlv = .error .invalidLevel := by
    simp [set_logging_level, hbad]
  refine ⟨?_, ?_, rfl, ?_⟩
  · simp only [logger_init, hOff]
    refine ⟨_, _, rfl, rfl, ?_⟩
    have h00 : (h.alloc [("type", PyVal.str name)]).2
        < ((h.alloc [("type", PyVal.str name)]).1.alloc kwargs).1.fresh := by
      simp only [Heap.alloc]
      omega
    have h01 : ((h.alloc [("type", PyVal.str name)]).1.alloc kwargs).2
        < ((h.alloc [("type", PyVal.str name)]).1.alloc kwargs).1.fresh := by
      simp [Heap.alloc]
    obtain ⟨f1, f2, f3, f4⟩ := get_update_attributes_list_spec
      ((h.alloc [("type", PyVal.str name)]).1.alloc kwargs).1
      (h.alloc [("type", PyVal.str name)]).2
      ((h.alloc [("type", PyVal.str name)]).1.alloc kwargs).2 h00 h01
    rw [f1, f4]
    have hm1 : (((h.alloc [("type", PyVal.str name)]).1.alloc kwargs).1).mem
        (h.alloc [("type", PyVal.str name)]).2 = [("type", PyVal.str name)] := by
      simp [Heap.alloc]
    have hm2 : (((h.alloc [("type", PyVal.str name)]).1.alloc kwargs).1).mem
        ((h.alloc [("type", PyVal.str name)]).1.alloc kwargs).2 = kwargs := by
      simp [Heap.alloc]
    rw [hm1, hm2]
  · simp only [logger_init, hOff]
    refine ⟨_, _, rfl, rfl, ?_, ?_⟩
    · have h00 : aref < (h.alloc kwargs).1.fresh := by
        simp [Heap.alloc]; omega
      have h01 : (h.alloc kwargs).2 < (h.alloc kwargs).1.fresh := by
        simp [Heap.alloc]
      obtain ⟨f1, f2, f3, f4⟩ := get_update_attributes_list_spec
        (h.alloc kwargs).1 aref (h.alloc kwargs).2 h00 h01
      rw [f1, f4]
      have hm1 : ((h.alloc kwargs).1).mem aref = h.mem aref := by
        simp [Heap.alloc, Nat.ne_of_lt ha]
      have hm2 : ((h.alloc kwargs).1).mem (h.alloc kwargs).2 = kwargs := by
        simp [Heap.alloc]
      rw [hm1, hm2]
    · have h00 : aref < (h.alloc kwargs).1.fresh := by
        simp [Heap.alloc]; omega
      have h01 : (h.alloc kwargs).2 < (h.alloc kwargs).1.fresh := by
        simp [Heap.alloc]
      obtain ⟨f1, f2, f3, f4⟩ := get_update_attributes_list_spec
        (h.alloc kwargs).1 aref (h.alloc kwargs).2 h00 h01
      have : aref ≠ (h.alloc kwargs).1.fresh := by
        simp [Heap.alloc]; omega
      rw [show ((h.alloc kwargs).1.fresh : Nat) = h.fresh + 1 from rfl] at this
      rw [f3 aref (by simpa [Heap.alloc] using this)]
      simp [Heap.alloc, Nat.ne_of_lt ha]
  · simp only [logger_init, hBad]

theorem C7_construction_witness :
    (0 : Nat) < (⟨1, fun _ => [("type", PyVal.str "svc")]⟩ : Heap).fresh ∧
    pyLower "bogus" ∉ (["off", "terse", "on"] : List String) ∧
    ((∃ h1 L1, logger_init (⟨1, fun _ => [("type", PyVal.str "svc")]⟩ : Heap)
        (.strLabel "svc") "Off" [("stage", PyVal.str "x")] = .ok (h1, L1) ∧
      L1.log_level = "off" ∧
      h1.mem L1.attrRef = mergeDicts [("type", PyVal.str "svc")]
        [("stage", PyVal.str "x")]) ∧
    (∃ h2 L2, logger_init (⟨1, fun _ => [("type", PyVal.str "svc")]⟩ : Heap)
        (.loggerLike 0) "Off" [("stage", PyVal.str "x")] = .ok (h2, L2) ∧
      L2.log_level = "off" ∧
      h2.mem L2.attrRef = mergeDicts
        ((⟨1, fun _ => [("type", PyVal.str "svc")]⟩ : Heap).mem 0)
        [("stage", PyVal.str "x")] ∧
      h2.mem 0 = (⟨1, fun _ => [("type", PyVal.str "svc")]⟩ : Heap).mem 0) ∧
    logger_init (⟨1, fun _ => [("type", PyVal.str "svc")]⟩ : Heap) .other
      "on" [("stage", PyVal.str "x")] = .error .invalidSource ∧
    logger_init (⟨1, fun _ => [("type", PyVal.str "svc")]⟩ : Heap)
      (.strLabel "svc") "bogus" [("stage", PyVal.str "x")]
        = .error .invalidLevel) :=
  ⟨by decide, by decide, C7_construction
    (⟨1, fun _ => [("type", PyVal.str "svc")]⟩ : Heap) "svc" 0
    [("stage", PyVal.str "x")] "on" "bogus" (by decide) (by decide)⟩

/-- C9: threshold strings are normalized case-insensitively before
validation: whenever the lower-cased string is one of off, terse, on, the
call to set_logging_level succeeds and stores the lower-cased value. -/
theorem C9_threshold_case_insensitive (s : String)
    (hs : pyLower s ∈ (["off", "terse", "on"] : List String)) :
    set_logging_level s = .ok (pyLower s) := by
  simp [set_logging_level, hs]

theorem C9_threshold_case_insensitive_witness :
    pyLower "Off" ∈ (["off", "terse", "on"] : List String) ∧
    set_logging_level "Off" = .ok (pyLower "Off") :=
  ⟨by decide, C9_threshold_case_insensitive "Off" (by decide)⟩

/-- C8: get_log_items_as_tuple returns (as a permutation delivered sorted
ascending by timestamp) exactly the stored records that match the caller
attribute filter and whose timestamp is strictly older than now minus
lookback_days; the reserved timestamp, severity and text keys are removed
from the returned attribute mapping and their values are returned only as
the separate tuple fields. -/
theorem C8_fetch_returns_matching_sorted_records (h : Heap) (coll : List Dict)
    (adRef : Nat) (now : Int) (days : Nat)
    (hq : dcontains (h.mem adRef) TIMESTAMP_ID = false)
    (hwf : ∀ doc ∈ coll, wfDoc doc = true) :
    ∃ out,
      (get_log_items_as_tuple h coll adRef now days).2 = .ok out ∧
      List.Perm out ((coll.filter (fun doc =>
        matchesFilter (h.mem adRef) doc &&
          docTsLt doc (now - (days : Int)))).map extractTuple) ∧
      out.Pairwise (fun a b => tsKeyVal a.1 ≤ tsKeyVal b.1) ∧
      (∀ tup ∈ out, dlookup tup.2.2.2 TIMESTAMP_ID = none ∧
        dlookup tup.2.2.2 LEVEL_ID = none ∧
        dlookup tup.2.2.2 TEXT_ID = none) ∧
      (∀ doc : Dict,
        (extractTuple doc).1 = (dlookup doc TIMESTAMP_ID).getD (PyVal.str "") ∧
        (extractTuple doc).2.1 = (dlookup doc LEVEL_ID).getD (PyVal.str "") ∧
        (extractTuple doc).2.2.1
          = (dlookup doc TEXT_ID).getD (PyVal.str "")) := by
  have hsnd := get_log_items_as_tuple_snd h coll adRef now days hwf
  rw [findDocs_timestamp_filter coll (h.mem adRef) (now - (days : Int)) hq]
    at hsnd
  refine ⟨_, hsnd, List.mergeSort_perm _ _, ?_, ?_, ?_⟩
  · refine List.Pairwise.imp ?_ (List.sorted_mergeSort ?_ ?_ _)
    · intro a b hab
      exact of_decide_eq_true hab
    · intro a b c hab hbc
      exact decide_eq_true
        (le_trans (of_decide_eq_true hab) (of_decide_eq_true hbc))
    · intro a b
      rcases le_total (tsKeyVal a.1) (tsKeyVal b.1) with hle | hle
      · simp [hle]
      · simp [hle]
  · intro tup htup
    rw [List.mem_mergeSort] at htup
    obtain ⟨doc, hdoc, rfl⟩ := List.mem_map.mp htup
    refine ⟨?_, ?_, ?_⟩
    · show dlookup (ddelete (ddelete (ddelete (ddelete doc MONGO_ID_KEY)
        TIMESTAMP_ID) LEVEL_ID) TEXT_ID) TIMESTAMP_ID = none
      rw [dlookup_ddelete_ne _ _ _ (by decide),
        dlookup_ddelete_ne _ _ _ (by decide), dlookup_ddelete_self]
    · show dlookup (ddelete (ddelete (ddelete (ddelete doc MONGO_ID_KEY)
        TIMESTAMP_ID) LEVEL_ID) TEXT_ID) LEVEL_ID = none
      rw [dlookup_ddelete_ne _ _ _ (by decide), dlookup_ddelete_self]
    · exact dlookup_ddelete_self _ _
  · intro doc
    refine ⟨?_, ?_, ?_⟩
    · show (dlookup (ddelete doc MONGO_ID_KEY) TIMESTAMP_ID).getD (PyVal.str "")
        = (dlookup doc TIMESTAMP_ID).getD (PyVal.str "")
      rw [dlookup_ddelete_ne _ _ _ (by decide)]
    · show (dlookup (ddelete (ddelete doc MONGO_ID_KEY) TIMESTAMP_ID)
          LEVEL_ID).getD (PyVal.str "")
        = (dlookup doc LEVEL_ID).getD (PyVal.str "")
      rw [dlookup_ddelete_ne _ _ _ (by decide),
        dlookup_ddelete_ne _ _ _ (by decide)]
    · show (dlookup (ddelete (ddelete (ddelete doc MONGO_ID_KEY) TIMESTAMP_ID)
          LEVEL_ID) TEXT_ID).getD (PyVal.str "")
        = (dlookup doc TEXT_ID).getD (PyVal.str "")
      rw [dlookup_ddelete_ne _ _ _ (by decide),
        dlookup_ddelete_ne _ _ _ (by decide),
        dlookup_ddelete_ne _ _ _ (by decide)]

theorem C8_fetch_returns_matching_sorted_records_witness :
    dcontains ((⟨1, fun _ => []⟩ : Heap).mem 0) TIMESTAMP_ID = false ∧
    (∀ doc ∈ [[("_id", PyVal.str "i1"), ("_Timestamp", PyVal.ts 5),
        ("_Level", PyVal.str ""), ("_Text", PyVal.str "x"),
        ("type", PyVal.str "T")],
      [("_id", PyVal.str "i2"), ("_Timestamp", PyVal.ts 3),
        ("_Level", PyVal.str "[Warning]"), ("_Text", PyVal.str "y")]],
      wfDoc doc = true) ∧
    (∃ out,
      (get_log_items_as_tuple (⟨1, fun _ => []⟩ : Heap)
        [[("_id", PyVal.str "i1"), ("_Timestamp", PyVal.ts 5),
          ("_Level", PyVal.str ""), ("_Text", PyVal.str "x"),
          ("type", PyVal.str "T")],
        [("_id", PyVal.str "i2"), ("_Timestamp", PyVal.ts 3),
          ("_Level", PyVal.str "[Warning]"), ("_Text", PyVal.str "y")]]
        0 10 1).2 = .ok out ∧
      List.Perm out (([[("_id", PyVal.str "i1"), ("_Timestamp", PyVal.ts 5),
          ("_Level", PyVal.str ""), ("_Text", PyVal.str "x"),
          ("type", PyVal.str "T")],
        [("_id", PyVal.str "i2"), ("_Timestamp", PyVal.ts 3),
          ("_Level", PyVal.str "[Warning]"), ("_Text", PyVal.str "y")]].filter
        (fun doc => matchesFilter ((⟨1, fun _ => []⟩ : Heap).mem 0) doc &&
          docTsLt doc (10 - ((1 : Nat) : Int)))).map extractTuple) ∧
      out.Pairwise (fun a b => tsKeyVal a.1 ≤ tsKeyVal b.1) ∧
      (∀ tup ∈ out, dlookup tup.2.2.2 TIMESTAMP_ID = none ∧
        dlookup tup.2.2.2 LEVEL_ID = none ∧
        dlookup tup.2.2.2 TEXT_ID = none) ∧
      (∀ doc : Dict,
        (extractTuple doc).1 = (dlookup doc TIMESTAMP_ID).getD (PyVal.str "") ∧
        (extractTuple doc).2.1 = (dlookup doc LEVEL_ID).getD (PyVal.str "") ∧
        (extractTuple doc).2.2.1
          = (dlookup doc TEXT_ID).getD (PyVal.str ""))) :=
  ⟨by decide, by decide, C8_fetch_returns_matching_sorted_records
    (⟨1, fun _ => []⟩ : Heap)
    [[("_id", PyVal.str "i1"), ("_Timestamp", PyVal.ts 5),
      ("_Level", PyVal.str ""), ("_Text", PyVal.str "x"),
      ("type", PyVal.str "T")],
    [("_id", PyVal.str "i2"), ("_Timestamp", PyVal.ts 3),
      ("_Level", PyVal.str "[Warning]"), ("_Text", PyVal.str "y")]]
    0 10 1 (by decide) (by decide)⟩

/-- C10: get_log_items_as_tuple mutates the attribute-filter dict the
caller passed by reference: after the call the dict stored at that
reference is the old dict with the reserved timestamp key bound to the
nested less-than cutoff condition, so a later lookup of the reserved key in
the caller dict yields the cutoff condition; a second call through the same
reference — as happens for every call that omits the filter argument, since
the mutable default dict is shared — mutates that same dict again. -/
theorem C10_fetch_mutates_caller_filter (h : Heap) (coll coll2 : List Dict)
    (adRef : Nat) (now now2 : Int) (days days2 : Nat) :
    (get_log_items_as_tuple h coll adRef now days).1.mem adRef
      = dinsert (h.mem adRef) TIMESTAMP_ID
          (PyVal.ltCond (now - (days : Int))) ∧
    dlookup ((get_log_items_as_tuple h coll adRef now days).1.mem adRef)
        TIMESTAMP_ID = some (PyVal.ltCond (now - (days : Int))) ∧
    (get_log_items_as_tuple (get_log_items_as_tuple h coll adRef now days).1
        coll2 adRef now2 days2).1.mem adRef
      = dinsert (dinsert (h.mem adRef) TIMESTAMP_ID
          (PyVal.ltCond (now - (days : Int)))) TIMESTAMP_ID
          (PyVal.ltCond (now2 - (days2 : Int))) := by
  have h1 : (get_log_items_as_tuple h coll adRef now days).1.mem adRef
      = dinsert (h.mem adRef) TIMESTAMP_ID
          (PyVal.ltCond (now - (days : Int))) := by
    rw [get_log_items_as_tuple_fst]
    simp [Heap.write]
  refine ⟨h1, ?_, ?_⟩
  · rw [h1]
    exact dlookup_dinsert_self _ _ _
  · rw [get_log_items_as_tuple_fst, get_log_items_as_tuple_fst]
    simp [Heap.write]
